import Mathlib

/-!
Verification development for the draw-size application
(geometric rectification, flood-fill region segmentation, area accounting,
and the analysis persistence endpoints).

The executable definitions below embed the behaviour of
`src/floodfill-03.py` and `src/backend/app/{main,routes,schemas,models}.py`.
Where the repository delegates to a library routine (cv2.floodFill,
cv2.getPerspectiveTransform, cv2.warpPerspective) or to frontend code that is
not part of the backend sources, the definition carries a doc comment saying
what is modelled and from where.
-/

namespace DrawSize

/-- A pixel: three 8-bit colour channels (as stored in a BGR image row). -/
structure Pix where
  c0 : Nat
  c1 : Nat
  c2 : Nat

/-- A pixel canvas: `pix x y` is the pixel at column `x`, row `y`
(meaningful for `x < w`, `y < h`). -/
structure Canvas where
  w : Nat
  h : Nat
  pix : Nat → Nat → Pix

/-- Bounds check for a coordinate pair against a canvas. -/
def inB (c : Canvas) (p : Nat × Nat) : Bool :=
  decide (p.1 < c.w) && decide (p.2 < c.h)

/-- Absolute difference of two channel values. -/
def cdiff (a b : Nat) : Nat := max a b - min a b

/-- Fixed-range colour test of `cv2.floodFill` with
`FLOODFILL_FIXED_RANGE` and `lo_diff = up_diff = (tol, tol, tol)`
(`src/floodfill-03.py` lines 24-29): every channel of the candidate pixel
must differ from the corresponding channel of the seed pixel's original
colour by at most `tol`. -/
def okPix (c : Canvas) (seed : Nat × Nat) (tol : Nat) (p : Nat × Nat) : Bool :=
  decide (cdiff (c.pix seed.1 seed.2).c0 (c.pix p.1 p.2).c0 ≤ tol) &&
  decide (cdiff (c.pix seed.1 seed.2).c1 (c.pix p.1 p.2).c1 ≤ tol) &&
  decide (cdiff (c.pix seed.1 seed.2).c2 (c.pix p.1 p.2).c2 ≤ tol)

/-- 4-connectivity: `p` and `q` differ by one in exactly one coordinate
(connectivity value 4 in the flood-fill flags). -/
def adjB (p q : Nat × Nat) : Bool :=
  (decide (p.1 = q.1) && (decide (p.2 = q.2 + 1) || decide (q.2 = p.2 + 1))) ||
  (decide (p.2 = q.2) && (decide (p.1 = q.1 + 1) || decide (q.1 = p.1 + 1)))

/-- All in-bounds coordinates of a canvas. -/
def pts (c : Canvas) : Finset (Nat × Nat) :=
  Finset.range c.w ×ˢ Finset.range c.h

/-- One round of region growth: add every in-bounds pixel that passes the
fixed-range colour test and is 4-adjacent to a pixel already in the region. -/
def step (c : Canvas) (seed : Nat × Nat) (tol : Nat) (s : Finset (Nat × Nat)) :
    Finset (Nat × Nat) :=
  s ∪ (pts c).filter fun p =>
    okPix c seed tol p = true ∧ ∃ q ∈ s, adjB p q = true

/-- Modelled from the spec: the region grown by the `cv2.floodFill` call of
`src/floodfill-03.py` (the traversal itself lives inside OpenCV; the spec
prescribes a finite worklist whose result is independent of visit order).
A breadth-first worklist processed in rounds is `step` iterated; `c.w * c.h`
rounds bound the worklist by the pixel count of the canvas. -/
def segment (c : Canvas) (seed : Nat × Nat) (tol : Nat) : Finset (Nat × Nat) :=
  (step c seed tol)^[c.w * c.h] {seed}

/-- A mask grid: `val x y` for `x < w`, `y < h`. -/
structure Mask where
  w : Nat
  h : Nat
  val : Nat → Nat → Nat

/-- The flood-fill working mask of `src/floodfill-03.py`:
`np.zeros((h+2, w+2))`, into which `cv2.floodFill` (with mask fill value
`255 << 8` in the flags) writes 255 at mask coordinate `(x+1, y+1)` for every
image pixel `(x, y)` of the grown region. -/
def floodMaskFull (c : Canvas) (seed : Nat × Nat) (tol : Nat) : Mask :=
  ⟨c.w + 2, c.h + 2, fun x y =>
    if 1 ≤ x ∧ 1 ≤ y ∧ (x - 1, y - 1) ∈ segment c seed tol then 255 else 0⟩

/-- `current_mask = mask[1:-1, 1:-1]` (`src/floodfill-03.py` line 32):
the working mask cropped back to the image extent. -/
def current_mask (c : Canvas) (seed : Nat × Nat) (tol : Nat) : Mask :=
  ⟨(floodMaskFull c seed tol).w - 2, (floodMaskFull c seed tol).h - 2,
   fun x y => (floodMaskFull c seed tol).val (x + 1) (y + 1)⟩

/-- Reachability from the seed by a 4-connected path every pixel of which is
in bounds and passes the fixed-range colour test against the seed pixel's
original colour. -/
inductive Reach (c : Canvas) (seed : Nat × Nat) (tol : Nat) : Nat × Nat → Prop
  | seed (hin : inB c seed = true) (hok : okPix c seed tol seed = true) :
      Reach c seed tol seed
  | tail {p q : Nat × Nat} (hq : Reach c seed tol q) (hadj : adjB p q = true)
      (hin : inB c p = true) (hok : okPix c seed tol p = true) :
      Reach c seed tol p

lemma mem_pts {c : Canvas} {p : Nat × Nat} : p ∈ pts c ↔ inB c p = true := by
  cases p with
  | mk x y =>
    simp [pts, inB, Finset.mem_product]

lemma okPix_seed_self (c : Canvas) (seed : Nat × Nat) (tol : Nat) :
    okPix c seed tol seed = true := by
  simp [okPix, cdiff]

lemma subset_step (c : Canvas) (seed : Nat × Nat) (tol : Nat)
    (s : Finset (Nat × Nat)) : s ⊆ step c seed tol s :=
  Finset.subset_union_left

lemma step_subset_union (c : Canvas) (seed : Nat × Nat) (tol : Nat)
    (s : Finset (Nat × Nat)) : step c seed tol s ⊆ s ∪ pts c :=
  Finset.union_subset Finset.subset_union_left
    ((Finset.filter_subset _ _).trans Finset.subset_union_right)

lemma iterate_subset_pts (c : Canvas) (seed : Nat × Nat) (tol : Nat)
    {s : Finset (Nat × Nat)} (hs : s ⊆ pts c) (k : Nat) :
    (step c seed tol)^[k] s ⊆ pts c := by
  induction k with
  | zero => simpa using hs
  | succ k ih =>
    rw [Function.iterate_succ_apply']
    exact (step_subset_union c seed tol _).trans (Finset.union_subset ih le_rfl)

lemma subset_iterate (c : Canvas) (seed : Nat × Nat) (tol : Nat)
    (s : Finset (Nat × Nat)) (k : Nat) : s ⊆ (step c seed tol)^[k] s := by
  induction k with
  | zero => simp
  | succ k ih =>
    rw [Function.iterate_succ_apply']
    exact ih.trans (subset_step c seed tol _)

lemma iterate_of_fixed (c : Canvas) (seed : Nat × Nat) (tol : Nat)
    {s : Finset (Nat × Nat)} (hfix : step c seed tol s = s) (k : Nat) :
    (step c seed tol)^[k] s = s := by
  induction k with
  | zero => rfl
  | succ k ih => rw [Function.iterate_succ_apply', ih, hfix]

/-- After `c.w * c.h` rounds the grown region is a fixed point of `step`. -/
lemma segment_fixed (c : Canvas) (seed : Nat × Nat) (tol : Nat)
    (hseed : inB c seed = true) :
    step c seed tol (segment c seed tol) = segment c seed tol := by
  classical
  set f := step c seed tol with hf
  set s0 : Finset (Nat × Nat) := {seed} with hs0
  set n := c.w * c.h with hn
  have hs0pts : s0 ⊆ pts c := by
    intro p hp
    rw [hs0, Finset.mem_singleton] at hp
    subst hp
    exact mem_pts.mpr hseed
  have hptscard : (pts c).card = n := by
    rw [pts, hn, Finset.card_product, Finset.card_range, Finset.card_range]
  by_cases hex : ∃ k, k < n ∧ f^[k + 1] s0 = f^[k] s0
  · obtain ⟨k, hk, heq⟩ := hex
    have hfixk : f (f^[k] s0) = f^[k] s0 := by
      rw [← Function.iterate_succ_apply' f k s0]
      exact heq
    have hnk : (n - k) + k = n := Nat.sub_add_cancel (le_of_lt hk)
    have hseg : segment c seed tol = f^[k] s0 := by
      show f^[n] s0 = f^[k] s0
      rw [← hnk, Function.iterate_add_apply]
      exact iterate_of_fixed c seed tol hfixk (n - k)
    rw [hseg]
    exact hfixk
  · push_neg at hex
    exfalso
    have hgrow : ∀ k, k ≤ n → s0.card + k ≤ (f^[k] s0).card := by
      intro k hk
      induction k with
      | zero => simp
      | succ k ih =>
        have hk' : k < n := lt_of_lt_of_le (Nat.lt_succ_self k) hk
        have hss : f^[k] s0 ⊂ f^[k + 1] s0 := by
          rw [Finset.ssubset_iff_subset_ne]
          refine ⟨?_, ?_⟩
          · rw [Function.iterate_succ_apply']
            exact subset_step c seed tol _
          · exact fun h => hex k hk' h.symm
        have := Finset.card_lt_card hss
        have := ih (le_of_lt hk')
        omega
    have hle : (f^[n] s0).card ≤ (pts c).card :=
      Finset.card_le_card (iterate_subset_pts c seed tol hs0pts n)
    rw [hptscard] at hle
    have h1 : s0.card = 1 := Finset.card_singleton seed
    have := hgrow n le_rfl
    omega

/-- Everything produced by the growth rounds is reachable. -/
lemma mem_iterate_reach (c : Canvas) (seed : Nat × Nat) (tol : Nat)
    (hseed : inB c seed = true) (k : Nat) :
    ∀ p ∈ (step c seed tol)^[k] ({seed} : Finset (Nat × Nat)),
      Reach c seed tol p := by
  induction k with
  | zero =>
    intro p hp
    rw [Function.iterate_zero_apply, Finset.mem_singleton] at hp
    rw [hp]
    exact Reach.seed hseed (okPix_seed_self c seed tol)
  | succ k ih =>
    intro p hp
    rw [Function.iterate_succ_apply', step, Finset.mem_union] at hp
    rcases hp with hp | hp
    · exact ih p hp
    · rw [Finset.mem_filter] at hp
      obtain ⟨hpts, hok, q, hq, hadj⟩ := hp
      exact Reach.tail (ih q hq) hadj (mem_pts.mp hpts) hok

/-- Everything reachable is produced by the growth rounds. -/
lemma reach_mem_segment (c : Canvas) (seed : Nat × Nat) (tol : Nat)
    (hseed : inB c seed = true) {p : Nat × Nat} (hr : Reach c seed tol p) :
    p ∈ segment c seed tol := by
  induction hr with
  | seed hin hok =>
    exact subset_iterate _ _ _ _ _ (Finset.mem_singleton_self _)
  | tail hq hadj hin hok ih =>
    rw [← segment_fixed c seed tol hseed, step, Finset.mem_union]
    right
    rw [Finset.mem_filter]
    exact ⟨mem_pts.mpr hin, hok, _, ih, hadj⟩

lemma okPix_mono (c : Canvas) (seed p : Nat × Nat) {t1 t2 : Nat} (h : t1 ≤ t2)
    (hok : okPix c seed t1 p = true) : okPix c seed t2 p = true := by
  simp only [okPix, Bool.and_eq_true, decide_eq_true_eq] at hok ⊢
  exact ⟨⟨le_trans hok.1.1 h, le_trans hok.1.2 h⟩, le_trans hok.2 h⟩

lemma reach_mono (c : Canvas) (seed : Nat × Nat) {t1 t2 : Nat} (h : t1 ≤ t2)
    {p : Nat × Nat} (hr : Reach c seed t1 p) : Reach c seed t2 p := by
  induction hr with
  | seed hin hok => exact Reach.seed hin (okPix_mono c seed _ h hok)
  | tail hq hadj hin hok ih => exact Reach.tail ih hadj hin (okPix_mono c seed _ h hok)

/-- 1×1 test canvas, a single black pixel. -/
def cnv1 : Canvas := ⟨1, 1, fun _ _ => ⟨0, 0, 0⟩⟩

/-- 2×1 test canvas: pixel (0,0) black, pixel (1,0) of channel value 1. -/
def cnv2 : Canvas := ⟨2, 1, fun x _ => if x = 0 then ⟨0, 0, 0⟩ else ⟨1, 1, 1⟩⟩

/-- Claim C2: a pixel belongs to the grown region iff it is reachable from
the seed by a 4-connected path of in-bounds pixels each of which differs from
the seed pixel's original colour by at most the tolerance in every channel
(the fixed-range flood fill of `src/floodfill-03.py`). -/
theorem region_mem_iff_reach (c : Canvas) (seed : Nat × Nat) (tol : Nat)
    (hseed : inB c seed = true) (p : Nat × Nat) :
    p ∈ segment c seed tol ↔ Reach c seed tol p :=
  ⟨fun hp => mem_iterate_reach c seed tol hseed _ p hp,
   fun hr => reach_mem_segment c seed tol hseed hr⟩

theorem region_mem_iff_reach_witness :
    inB cnv1 (0, 0) = true ∧
      ((0, 0) ∈ segment cnv1 (0, 0) 0 ↔ Reach cnv1 (0, 0) 0 (0, 0)) :=
  ⟨by decide, region_mem_iff_reach cnv1 (0, 0) 0 (by decide) (0, 0)⟩

/-- Claim C6: region growth is monotone in the tolerance: with the same
canvas and in-bounds seed, every pixel of the region grown at tolerance
`t1 < t2` is also in the region grown at tolerance `t2`. -/
theorem segment_mono_tol (c : Canvas) (seed : Nat × Nat) {t1 t2 : Nat}
    (hseed : inB c seed = true) (ht : t1 < t2) :
    segment c seed t1 ⊆ segment c seed t2 := fun p hp =>
  reach_mem_segment c seed t2 hseed
    (reach_mono c seed (le_of_lt ht) (mem_iterate_reach c seed t1 hseed _ p hp))

theorem segment_mono_tol_witness :
    inB cnv2 (0, 0) = true ∧ (0 : Nat) < 1 ∧
      segment cnv2 (0, 0) 0 ⊆ segment cnv2 (0, 0) 1 :=
  ⟨by decide, by decide, segment_mono_tol cnv2 (0, 0) (by decide) (by decide)⟩

/-- Claim C5 (counterexample): the returned mask marks region pixels with
value 255 — the fill value `255 << 8` set in the flood-fill flags — not with
value 1: on a 1×1 canvas the seed pixel is in the region and its mask value
is 255. -/
theorem mask_value_not_one :
    (0, 0) ∈ segment cnv1 (0, 0) 0 ∧ (current_mask cnv1 (0, 0) 0).val 0 0 ≠ 1 := by
  decide

/-- Claim C5 (amended): the cropped mask is congruent to the canvas
(same width and height) and holds 255 at exactly the pixels of the grown
region and 0 at every other coordinate. -/
theorem mask_dims_and_values (c : Canvas) (seed : Nat × Nat) (tol : Nat) :
    ((current_mask c seed tol).w = c.w ∧ (current_mask c seed tol).h = c.h) ∧
    ∀ x y : Nat,
      ((x, y) ∈ segment c seed tol → (current_mask c seed tol).val x y = 255) ∧
      ((x, y) ∉ segment c seed tol → (current_mask c seed tol).val x y = 0) := by
  refine ⟨⟨rfl, rfl⟩, fun x y => ⟨fun hm => ?_, fun hm => ?_⟩⟩
  · simp [current_mask, floodMaskFull, hm]
  · simp [current_mask, floodMaskFull, hm]

theorem mask_dims_and_values_witness :
    (current_mask cnv1 (0, 0) 0).w = cnv1.w ∧
      (current_mask cnv1 (0, 0) 0).val 0 0 = 255 :=
  ⟨(mask_dims_and_values cnv1 (0, 0) 0).1.1,
   ((mask_dims_and_values cnv1 (0, 0) 0).2 0 0).1 (by decide)⟩

/-- Python `int()` applied to a real value: truncation toward zero. -/
def pyInt (q : ℚ) : ℤ := if q < 0 then ⌈q⌉ else ⌊q⌋

/-- `output_height = 800` (`src/backend/app/routes.py` line 382,
`src/backend/app/main.py` line 171). -/
def output_height : ℕ := 800

/-- `output_width = int(output_height * aspect_ratio)` with
`aspect_ratio = width / height`
(`src/backend/app/routes.py` lines 379-383, `src/backend/app/main.py`
lines 168-172). -/
def output_width (width height : ℚ) : ℤ :=
  pyInt ((output_height : ℚ) * (width / height))

/-- Claim C1 (counterexample): at real dimensions 1 × 3 (both positive) the
code truncates `800 * (1/3)` to 266 while rounding gives 267. -/
theorem output_width_not_round :
    (0 : ℚ) < 1 ∧ (0 : ℚ) < 3 ∧
      output_width 1 3 ≠ round ((800 : ℚ) * (1 / 3)) := by
  refine ⟨by norm_num, by norm_num, ?_⟩
  have h1 : output_width 1 3 = 266 := by
    rw [output_width, pyInt, if_neg (by norm_num [output_height])]
    norm_num [Int.floor_eq_iff, output_height]
  have h2 : round ((800 : ℚ) * (1 / 3)) = 267 := by
    rw [round_eq]
    norm_num [Int.floor_eq_iff]
  rw [h1, h2]
  decide

/-- Claim C1 (amended): for positive real dimensions the output canvas is
800 pixels high and `⌊800 * (real_width / real_height)⌋` pixels wide —
Python `int()` truncates the aspect-scaled width (floor, for positive
values) instead of rounding it. -/
theorem output_dims (w h : ℚ) (hw : 0 < w) (hh : 0 < h) :
    output_width w h = ⌊(output_height : ℚ) * (w / h)⌋ ∧ output_height = 800 := by
  have hq : ¬ ((output_height : ℚ) * (w / h) < 0) := by
    rw [not_lt]
    have : (0 : ℚ) < w / h := div_pos hw hh
    positivity
  exact ⟨by rw [output_width, pyInt, if_neg hq], rfl⟩

theorem output_dims_witness :
    (0 : ℚ) < 1 ∧ (0 : ℚ) < 3 ∧
      (output_width 1 3 = ⌊(output_height : ℚ) * (1 / 3)⌋ ∧ output_height = 800) :=
  ⟨by norm_num, by norm_num, output_dims 1 3 (by norm_num) (by norm_num)⟩

/-- Dot product of two coefficient lists. -/
def dot (xs ys : List ℚ) : ℚ := (List.zipWith (· * ·) xs ys).sum

/-- Find a row of the augmented system whose leading coefficient is nonzero;
return it together with the remaining rows. -/
def findPivot : List (List ℚ × ℚ) → Option ((List ℚ × ℚ) × List (List ℚ × ℚ))
  | [] => none
  | r :: rs =>
    if r.1.headD 0 ≠ 0 then some (r, rs)
    else (findPivot rs).map fun pr => (pr.1, r :: pr.2)

/-- Eliminate the leading variable of row `r` using pivot row `p`. -/
def elimOne (p r : List ℚ × ℚ) : List ℚ × ℚ :=
  let f := r.1.headD 0 / p.1.headD 0
  ((List.zipWith (fun ri pi => ri - f * pi) r.1 p.1).tail, r.2 - f * p.2)

/-- Gaussian elimination on an augmented linear system in `n` unknowns;
`none` when no nonzero pivot exists for some column (singular system). -/
def gaussSolve : ℕ → List (List ℚ × ℚ) → Option (List ℚ)
  | 0, _ => some []
  | n + 1, rows =>
    match findPivot rows with
    | none => none
    | some (p, rest) =>
      (gaussSolve n (rest.map (elimOne p))).map fun xs =>
        (p.2 - dot p.1.tail xs) / p.1.headD 0 :: xs

/-- The 8×8 direct-linear-transform system for the four correspondences
from the source corners to the destination rectangle
`[(0,0), (ow,0), (ow,800), (0,800)]` used by the transform handlers
(`dst_points` of `src/backend/app/routes.py` lines 386-393). -/
def dltRows (src : List (ℚ × ℚ)) (ow : ℤ) : List (List ℚ × ℚ) :=
  let dst : List (ℚ × ℚ) :=
    [(0, 0), ((ow : ℚ), 0), ((ow : ℚ), (output_height : ℚ)), (0, (output_height : ℚ))]
  (src.zip dst).foldr
    (fun sd acc =>
      ([sd.1.1, sd.1.2, 1, 0, 0, 0, -sd.1.1 * sd.2.1, -sd.1.2 * sd.2.1], sd.2.1) ::
      ([0, 0, 0, sd.1.1, sd.1.2, 1, -sd.1.1 * sd.2.2, -sd.1.2 * sd.2.2], sd.2.2) :: acc)
    []

/-- The DLT system is singular (collinear or duplicate corners). -/
def dltSingular (src : List (ℚ × ℚ)) (ow : ℤ) : Bool :=
  (gaussSolve 8 (dltRows src ow)).isNone

/-- Modelled from cv2.getPerspectiveTransform: solve the 8×8 DLT system and
normalize the last matrix entry to 1 (row-major 9-entry matrix). On a
singular system `cv::solve(DECOMP_LU)` reports failure and zero-fills the
solution; no exception is raised. -/
def getPerspectiveTransform (src : List (ℚ × ℚ)) (ow : ℤ) : List ℚ :=
  match gaussSolve 8 (dltRows src ow) with
  | some xs => xs ++ [1]
  | none => [0, 0, 0, 0, 0, 0, 0, 0, 1]

/-- The HTTP rejections issued by `transform_project_image` before any
computation starts (`src/backend/app/routes.py` lines 340-361). -/
inductive HttpReject
  | imageNotFound
  | invalidCornersFormat
  | wrongCornerCount
deriving DecidableEq

/-- Python exceptions that can be raised during the computation phase. -/
inductive PyExc
  | zeroDivisionError
  | cvError
deriving DecidableEq

/-- The data produced and stored by a successful transform: output canvas
size, perspective matrix, and the fields written to the image record
(`src/backend/app/routes.py` lines 395-409). -/
structure TransformOk where
  out_w : ℤ
  out_h : ℕ
  matrix : List ℚ
  stored_real_width : ℚ
  stored_real_height : ℚ
  stored_real_unit : String
  stored_status : String
deriving DecidableEq

/-- Handler outcome: an input-shape rejection issued before any computation,
an exception raised during computation (surfaced as HTTP 500), or success. -/
inductive Outcome (α : Type)
  | rejected (r : HttpReject)
  | raised (e : PyExc)
  | ok (a : α)
deriving DecidableEq

def Outcome.isRejected {α : Type} : Outcome α → Bool
  | .rejected _ => true
  | _ => false

def Outcome.isOk {α : Type} : Outcome α → Bool
  | .ok _ => true
  | _ => false

/-- The computation phase of the transform handler
(`src/backend/app/routes.py` lines 378-409): `aspect_ratio = width / height`
raises ZeroDivisionError when `height = 0`; the perspective matrix is then
computed and `cv2.warpPerspective` (modelled: it rejects a non-positive
destination size) produces the canvas; the real dimensions and status are
stored. -/
def transformCompute (cs : List (ℚ × ℚ)) (width height : ℚ) : Outcome TransformOk :=
  if height = 0 then .raised .zeroDivisionError
  else
    let ow := output_width width height
    let m := getPerspectiveTransform cs ow
    if ow ≤ 0 then .raised .cvError
    else .ok ⟨ow, output_height, m, width, height, "m", "ready"⟩

/-- `transform_project_image` (`src/backend/app/routes.py` lines 330-425):
the only checks before computation are image existence, corners JSON parse,
and the corner count; then the computation phase runs. -/
def transform_project_image (imageFound : Bool) (corners : Option (List (ℚ × ℚ)))
    (width height : ℚ) : Outcome TransformOk :=
  if imageFound = false then .rejected .imageNotFound
  else
    match corners with
    | none => .rejected .invalidCornersFormat
    | some cs =>
      if cs.length ≠ 4 then .rejected .wrongCornerCount
      else transformCompute cs width height

/-- The unit square as a (non-degenerate) corner quad. -/
def quadUnit : List (ℚ × ℚ) := [(0, 0), (1, 0), (1, 1), (0, 1)]

/-- A degenerate quad: four identical corners. -/
def quadDup : List (ℚ × ℚ) := [(0, 0), (0, 0), (0, 0), (0, 0)]

/-- The real width stored on the image record by a successful transform. -/
def Outcome.storedWidth : Outcome TransformOk → Option ℚ
  | .ok a => some a.stored_real_width
  | _ => none

lemma output_width_one_one : output_width 1 1 = 800 := by
  rw [output_width, pyInt, if_neg (by norm_num [output_height])]
  norm_num [Int.floor_eq_iff, output_height]

lemma output_width_negs : output_width (-2) (-1) = 1600 := by
  rw [output_width, pyInt, if_neg (by norm_num [output_height])]
  norm_num [Int.floor_eq_iff, output_height]

/-- Claim C3 (counterexample): with four well-formed corners and real
dimensions -2 × -1 (both non-positive) the transform request is not
rejected before computation: it enters the computation phase, succeeds,
and stores the non-positive width on the image record. -/
theorem transform_no_validation_cex :
    ((-2 : ℚ) ≤ 0 ∧ (-1 : ℚ) ≤ 0) ∧
    (transform_project_image true (some quadUnit) (-2) (-1)).isRejected = false ∧
    (transform_project_image true (some quadUnit) (-2) (-1)).storedWidth = some (-2) := by
  refine ⟨⟨by norm_num, by norm_num⟩, ?_⟩
  simp only [transform_project_image, transformCompute, output_width_negs]
  norm_num [quadUnit, Outcome.isRejected, Outcome.storedWidth]

/-- Claim C3 (amended): before any computation the transform handler checks
only image existence, corners parse and corner count; real-dimension
positivity is never validated, so any four-corner request with non-positive
(or any other) dimensions enters the computation phase, where
`real_height = 0` raises ZeroDivisionError (an HTTP 500, not a validation
rejection). -/
theorem transform_no_positivity_validation (cs : List (ℚ × ℚ)) (w h : ℚ)
    (hcs : cs.length = 4) :
    transform_project_image true (some cs) w h = transformCompute cs w h ∧
    (transformCompute cs w h).isRejected = false ∧
    transformCompute cs w 0 = .raised .zeroDivisionError := by
  refine ⟨?_, ?_, ?_⟩
  · simp [transform_project_image, hcs]
  · rw [transformCompute]
    split
    · rfl
    · dsimp only
      split <;> rfl
  · rw [transformCompute]
    simp

theorem transform_no_positivity_validation_witness :
    transform_project_image true (some quadUnit) (-2) (-1) =
        transformCompute quadUnit (-2) (-1) ∧
      (transformCompute quadUnit (-2) (-1)).isRejected = false ∧
      transformCompute quadUnit (-2) 0 = .raised .zeroDivisionError :=
  transform_no_positivity_validation quadUnit (-2) (-1) rfl

/-- Claim C4 (counterexample): for the degenerate quad with four identical
corners (real dimensions 1 × 1, output width 800) the DLT system is
singular, yet no calibration error is surfaced: the perspective matrix is
zero-filled and the handler still produces and stores a canvas. -/
theorem degenerate_quad_cex :
    dltSingular quadDup 800 = true ∧
    getPerspectiveTransform quadDup 800 = [0, 0, 0, 0, 0, 0, 0, 0, 1] ∧
    output_width 1 1 = 800 ∧
    (transform_project_image true (some quadDup) 1 1).isOk = true := by
  refine ⟨?_, ?_, output_width_one_one, ?_⟩
  · simp [dltSingular, gaussSolve, dltRows, findPivot, quadDup]
  · simp [getPerspectiveTransform, gaussSolve, dltRows, findPivot, quadDup]
  · simp only [transform_project_image, transformCompute, output_width_one_one]
    norm_num [quadDup, Outcome.isOk]

/-- Claim C4 (amended): the code has no degenerate-quad error path. For any
four-corner quad whose DLT system is singular (collinear or duplicate
corners), with nonzero real height and positive computed output width, the
handler succeeds: cv2.getPerspectiveTransform silently zero-fills the
matrix and a full output-size canvas is produced and stored. -/
theorem degenerate_quad_no_error (cs : List (ℚ × ℚ)) (w h : ℚ)
    (hcs : cs.length = 4) (hh : h ≠ 0) (how : 0 < output_width w h)
    (hsing : dltSingular cs (output_width w h) = true) :
    transform_project_image true (some cs) w h =
      .ok ⟨output_width w h, output_height, [0, 0, 0, 0, 0, 0, 0, 0, 1],
           w, h, "m", "ready"⟩ := by
  have hnone : gaussSolve 8 (dltRows cs (output_width w h)) = none :=
    Option.isNone_iff_eq_none.mp hsing
  simp only [transform_project_image, transformCompute, hcs]
  rw [if_neg (by simp), if_neg hh, getPerspectiveTransform, hnone,
    if_neg (not_le.mpr how)]
  simp

theorem degenerate_quad_no_error_witness :
    transform_project_image true (some quadDup) 1 1 =
      .ok ⟨output_width 1 1, output_height, [0, 0, 0, 0, 0, 0, 0, 0, 1],
           1, 1, "m", "ready"⟩ :=
  degenerate_quad_no_error quadDup 1 1 rfl (by norm_num)
    (by rw [output_width_one_one]; norm_num)
    (by rw [output_width_one_one]
        simp [dltSingular, gaussSolve, dltRows, findPivot, quadDup])

/-- A resampled canvas: rational-valued pixels (interpolated intensities
before 8-bit quantisation). -/
structure RCanvas where
  w : ℕ
  h : ℕ
  pix : ℕ → ℕ → ℚ × ℚ × ℚ

/-- Determinant of a row-major 3×3 rational matrix. -/
def det3 (m : List ℚ) : ℚ :=
  let g := fun i => m.getD i 0
  g 0 * (g 4 * g 8 - g 5 * g 7) - g 1 * (g 3 * g 8 - g 5 * g 6) +
    g 2 * (g 3 * g 7 - g 4 * g 6)

/-- Modelled from cv2.invert semantics: adjugate inverse of a 3×3 matrix,
zero matrix when singular. -/
def inv3 (m : List ℚ) : List ℚ :=
  let g := fun i => m.getD i 0
  let d := det3 m
  if d = 0 then [0, 0, 0, 0, 0, 0, 0, 0, 0]
  else
    [(g 4 * g 8 - g 5 * g 7) / d, (g 2 * g 7 - g 1 * g 8) / d,
     (g 1 * g 5 - g 2 * g 4) / d,
     (g 5 * g 6 - g 3 * g 8) / d, (g 0 * g 8 - g 2 * g 6) / d,
     (g 2 * g 3 - g 0 * g 5) / d,
     (g 3 * g 7 - g 4 * g 6) / d, (g 1 * g 6 - g 0 * g 7) / d,
     (g 0 * g 4 - g 1 * g 3) / d]

/-- Apply a 3×3 homogeneous matrix to a point; `none` when the projective
division degenerates. -/
def applyH (m : List ℚ) (u v : ℚ) : Option (ℚ × ℚ) :=
  let g := fun i => m.getD i 0
  let den := g 6 * u + g 7 * v + g 8
  if den = 0 then none
  else some ((g 0 * u + g 1 * v + g 2) / den, (g 3 * u + g 4 * v + g 5) / den)

/-- The source canvas extent for sampling: the closed pixel-coordinate box
`[0, w-1] × [0, h-1]`. -/
def inExtent (c : Canvas) (p : ℚ × ℚ) : Bool :=
  decide (0 ≤ p.1) && decide (p.1 ≤ (c.w : ℚ) - 1) &&
  decide (0 ≤ p.2) && decide (p.2 ≤ (c.h : ℚ) - 1)

/-- Pixel fetch with clamped integer coordinates (for a point inside the
extent, the four bilinear neighbours either lie in bounds or carry zero
weight). -/
def clampPix (c : Canvas) (i j : ℤ) : Pix :=
  c.pix (min i.toNat (c.w - 1)) (min j.toNat (c.h - 1))

/-- Bilinear interpolation at a fractional source coordinate: the weighted
average of the four nearest integer-coordinate neighbours. -/
def bilin (c : Canvas) (p : ℚ × ℚ) : ℚ × ℚ × ℚ :=
  let x0 : ℤ := ⌊p.1⌋
  let y0 : ℤ := ⌊p.2⌋
  let dx := p.1 - (x0 : ℚ)
  let dy := p.2 - (y0 : ℚ)
  let f : (Pix → ℕ) → ℚ := fun ch =>
    (1 - dx) * (1 - dy) * (ch (clampPix c x0 y0) : ℚ) +
    dx * (1 - dy) * (ch (clampPix c (x0 + 1) y0) : ℚ) +
    (1 - dx) * dy * (ch (clampPix c x0 (y0 + 1)) : ℚ) +
    dx * dy * (ch (clampPix c (x0 + 1) (y0 + 1)) : ℚ)
  (f Pix.c0, f Pix.c1, f Pix.c2)

/-- The inverse-mapped source coordinate of destination pixel `(u, v)` falls
outside the source canvas extent (or the projective division degenerates,
in which case no source coordinate exists). -/
def oobAt (src : Canvas) (mInv : List ℚ) (u v : ℕ) : Bool :=
  match applyH mInv (u : ℚ) (v : ℚ) with
  | none => true
  | some p => ! inExtent src p

/-- Modelled from the spec: the Rectifier
(`cv2.warpPerspective(img, matrix, (output_width, output_height))` in
`src/backend/app/routes.py` line 396) — every destination pixel is
inverse-mapped through the matrix and bilinearly sampled from the source;
a destination pixel whose source coordinate falls outside the source extent
is the border constant black (0,0,0), cv2's default. -/
def warpPerspective (src : Canvas) (m : List ℚ) (ow oh : ℕ) : RCanvas :=
  ⟨ow, oh, fun u v =>
    match applyH (inv3 m) (u : ℚ) (v : ℚ) with
    | none => (0, 0, 0)
    | some p => if inExtent src p then bilin src p else (0, 0, 0)⟩

/-- Claim C7: the rectified canvas has exactly the output dimensions fixed
by the calibration, and every destination pixel whose inverse-mapped source
coordinate falls outside the source canvas extent is black (0,0,0). -/
theorem warp_dims_oob_black (src : Canvas) (m : List ℚ) (ow oh : ℕ) (u v : ℕ)
    (hoob : oobAt src (inv3 m) u v = true) :
    (warpPerspective src m ow oh).w = ow ∧
    (warpPerspective src m ow oh).h = oh ∧
    (warpPerspective src m ow oh).pix u v = (0, 0, 0) := by
  refine ⟨rfl, rfl, ?_⟩
  rw [oobAt] at hoob
  rw [warpPerspective]
  rcases hap : applyH (inv3 m) (u : ℚ) (v : ℚ) with _ | p
  · simp [hap]
  · rw [hap] at hoob
    simp only [Bool.not_eq_true'] at hoob
    simp [hap, hoob]

/-- A 3×3 matrix translating by (5, 5); its inverse maps (0,0) to (-5,-5),
outside any canvas extent. -/
def mShift : List ℚ := [1, 0, 5, 0, 1, 5, 0, 0, 1]

theorem warp_dims_oob_black_witness :
    oobAt cnv1 (inv3 mShift) 0 0 = true ∧
      (warpPerspective cnv1 mShift 2 3).w = 2 ∧
      (warpPerspective cnv1 mShift 2 3).pix 0 0 = (0, 0, 0) := by
  have hoob : oobAt cnv1 (inv3 mShift) 0 0 = true := by
    norm_num [oobAt, inv3, det3, applyH, mShift, inExtent, cnv1]
  exact ⟨hoob, (warp_dims_oob_black cnv1 mShift 2 3 0 0 hoob).1,
    (warp_dims_oob_black cnv1 mShift 2 3 0 0 hoob).2.2⟩

/-- Modelled from the spec: the AreaAccountant usable-area rule (the area
arithmetic runs in the frontend, which is not among the backend sources;
the backend only stores the resulting `usable_area` field):
`usable_area = max(0, real_width*real_height - effective_deselect_area)`,
recording a warning — not an error — when the raw difference is negative. -/
def usable_area_calc (rw rh eff : ℚ) : ℚ × Bool :=
  let raw := rw * rh - eff
  if raw < 0 then (0, true) else (raw, false)

/-- Claim C8: `usable_area` equals `max(0, real_width*real_height -
effective_deselect_area)`; a negative raw difference is clamped to zero and
flagged with a warning, never surfaced as an error. -/
theorem usable_area_clamped (rw rh eff : ℚ) :
    (usable_area_calc rw rh eff).1 = max 0 (rw * rh - eff) ∧
    (rw * rh - eff < 0 → usable_area_calc rw rh eff = (0, true)) := by
  rcases lt_or_le (rw * rh - eff) 0 with hneg | hpos
  · simp only [usable_area_calc, if_pos hneg]
    exact ⟨(max_eq_left (le_of_lt hneg)).symm, fun _ => trivial⟩
  · simp only [usable_area_calc, if_neg (not_lt.mpr hpos)]
    exact ⟨(max_eq_right hpos).symm, fun hc => absurd hc (not_lt.mpr hpos)⟩

theorem usable_area_clamped_witness :
    (4 : ℚ) * 3 - 15 < 0 ∧ usable_area_calc 4 3 15 = (0, true) :=
  ⟨by norm_num, (usable_area_clamped 4 3 15).2 (by norm_num)⟩

/-- A stored deselection item (`ImageDeselection` of
`src/backend/app/models.py`, created from `DeselectItemCreate` of
`src/backend/app/schemas.py`). -/
structure DeselectItem where
  shape : String
  count : ℤ
  length : Option ℚ
  breadth : Option ℚ
  diameter : Option ℚ
  area : Option ℚ
  unit : String
deriving DecidableEq

/-- The analysis-bearing columns of a `ProjectImage` row together with its
owned deselection items (`src/backend/app/models.py`). -/
structure StoredImage where
  mask_coverage_percent : Option ℚ
  deselect_area : Option ℚ
  effective_deselect_area : Option ℚ
  usable_area : Option ℚ
  cemented_area : Option ℚ
  cemented_percent : Option ℚ
  sort_key_numeric : Option ℚ
  real_width : Option ℚ
  real_height : Option ℚ
  real_unit : Option String
  deselections : List DeselectItem
deriving DecidableEq

/-- The `ImageAnalysisUpdate` request schema
(`src/backend/app/schemas.py` lines 125-137): every field optional. -/
structure AnalysisUpdate where
  mask_coverage_percent : Option ℚ
  deselect_area : Option ℚ
  effective_deselect_area : Option ℚ
  usable_area : Option ℚ
  cemented_area : Option ℚ
  cemented_percent : Option ℚ
  sort_key_numeric : Option ℚ
  real_width : Option ℚ
  real_height : Option ℚ
  real_unit : Option String
  deselections : Option (List DeselectItem)
  cemented_image : Option String
deriving DecidableEq

/-- `if value is not None: setattr(db_image, field, value)` — a null request
value leaves the stored value in place. -/
def upd {α : Type} : Option α → Option α → Option α
  | some v, _ => some v
  | none, old => old

/-- The per-field update loop of `save_image_analysis`
(`src/backend/app/routes.py` lines 450-465). -/
def applyAnalysisFields (img : StoredImage) (a : AnalysisUpdate) : StoredImage :=
  { img with
    mask_coverage_percent := upd a.mask_coverage_percent img.mask_coverage_percent
    deselect_area := upd a.deselect_area img.deselect_area
    effective_deselect_area := upd a.effective_deselect_area img.effective_deselect_area
    usable_area := upd a.usable_area img.usable_area
    cemented_area := upd a.cemented_area img.cemented_area
    cemented_percent := upd a.cemented_percent img.cemented_percent
    sort_key_numeric := upd a.sort_key_numeric img.sort_key_numeric
    real_width := upd a.real_width img.real_width
    real_height := upd a.real_height img.real_height
    real_unit := upd a.real_unit img.real_unit }

/-- The primitive statements issued inside the session transaction by
`save_image_analysis`. -/
inductive DbOp
  | setFields (a : AnalysisUpdate)
  | deleteDeselections
  | insertDeselection (item : DeselectItem)

def applyOp (img : StoredImage) : DbOp → StoredImage
  | .setFields a => applyAnalysisFields img a
  | .deleteDeselections => { img with deselections := [] }
  | .insertDeselection it => { img with deselections := img.deselections ++ [it] }

/-- The statement sequence of `save_image_analysis`
(`src/backend/app/routes.py` lines 450-487): the field updates, then —
only when a deselection list is supplied — a delete of all existing items
followed by inserts of the new ones. -/
def analysisOps (a : AnalysisUpdate) : List DbOp :=
  .setFields a ::
    (match a.deselections with
      | none => []
      | some items => .deleteDeselections :: items.map .insertDeselection)

/-- Transactional execution: the statements run against the session's
working state and become visible only at the single `db.commit()` at the
end of the handler; a failure raised after `k` statements aborts the
transaction and the previously committed state stays visible.
`failAfter = none` is the success path. -/
def runTxn (img : StoredImage) (ops : List DbOp) (failAfter : Option ℕ) :
    StoredImage :=
  match failAfter with
  | some _ => img
  | none => ops.foldl applyOp img

/-- `save_image_analysis` (`src/backend/app/routes.py` lines 428-490). -/
def save_image_analysis (img : StoredImage) (a : AnalysisUpdate)
    (failAfter : Option ℕ) : StoredImage :=
  runTxn img (analysisOps a) failAfter

lemma upd_eq_none {α : Type} {x old : Option α} (h : upd x old = none) :
    old = none := by
  cases x with
  | none => exact h
  | some v => exact absurd h (by simp [upd])

lemma foldl_insert (l : List DeselectItem) (img : StoredImage) :
    (l.map DbOp.insertDeselection).foldl applyOp img =
      { img with deselections := img.deselections ++ l } := by
  induction l generalizing img with
  | nil => simp
  | cons it l ih =>
    rw [List.map_cons, List.foldl_cons, ih]
    simp [applyOp]

/-- On the success path the handler state is the field update, with the
deselection list replaced when one was supplied. -/
lemma save_success_eq (img : StoredImage) (a : AnalysisUpdate) :
    save_image_analysis img a none =
      match a.deselections with
      | none => applyAnalysisFields img a
      | some items => { applyAnalysisFields img a with deselections := items } := by
  rw [save_image_analysis, runTxn, analysisOps]
  rcases a.deselections with _ | items
  · simp [applyOp]
  · simp only [List.foldl_cons, foldl_insert]
    simp [applyOp]

/-- Claim C9: when a save-analysis request supplies a (non-null)
deselections list, the stored set is replaced by exactly the new list on
success, and a failure at any point before the single commit leaves the
previous list — never a mix — visible. -/
theorem deselections_atomic_replace (img : StoredImage) (a : AnalysisUpdate)
    (items : List DeselectItem) (hsome : a.deselections = some items) :
    (save_image_analysis img a none).deselections = items ∧
    ∀ k : ℕ, (save_image_analysis img a (some k)).deselections = img.deselections := by
  constructor
  · rw [save_success_eq, hsome]
  · intro k
    rfl

/-- A concrete stored image used as a witness state. -/
def img0 : StoredImage :=
  ⟨some 10, some 2, some 2, some 8, none, none, none, some 4, some 3, some "m",
   [⟨"rect", 1, some 2, some 1, none, some 2, "m"⟩]⟩

/-- A concrete replacement list of deselection items. -/
def items0 : List DeselectItem :=
  [⟨"circle", 2, none, none, some 1, some (157 / 200), "m"⟩]

/-- A concrete analysis request replacing the deselections. -/
def upd0 : AnalysisUpdate :=
  ⟨none, some 5, none, none, none, none, none, none, none, none,
   some items0, none⟩

theorem deselections_atomic_replace_witness :
    (save_image_analysis img0 upd0 none).deselections = items0 ∧
      (save_image_analysis img0 upd0 (some 1)).deselections = img0.deselections :=
  ⟨(deselections_atomic_replace img0 upd0 items0 (by rfl)).1,
   (deselections_atomic_replace img0 upd0 items0 (by rfl)).2 1⟩

/-- Claim C10: every analysis field that is null in the request is left
unchanged on the stored record (so a stored value can never be reset to
null through this endpoint), and a null deselections field keeps all
existing deselection items. -/
theorem null_fields_preserved (img : StoredImage) (a : AnalysisUpdate) :
    ((a.mask_coverage_percent = none →
        (save_image_analysis img a none).mask_coverage_percent = img.mask_coverage_percent) ∧
     (a.deselect_area = none →
        (save_image_analysis img a none).deselect_area = img.deselect_area) ∧
     (a.effective_deselect_area = none →
        (save_image_analysis img a none).effective_deselect_area = img.effective_deselect_area) ∧
     (a.usable_area = none →
        (save_image_analysis img a none).usable_area = img.usable_area) ∧
     (a.cemented_area = none →
        (save_image_analysis img a none).cemented_area = img.cemented_area) ∧
     (a.cemented_percent = none →
        (save_image_analysis img a none).cemented_percent = img.cemented_percent) ∧
     (a.sort_key_numeric = none →
        (save_image_analysis img a none).sort_key_numeric = img.sort_key_numeric) ∧
     (a.real_width = none →
        (save_image_analysis img a none).real_width = img.real_width) ∧
     (a.real_height = none →
        (save_image_analysis img a none).real_height = img.real_height) ∧
     (a.real_unit = none →
        (save_image_analysis img a none).real_unit = img.real_unit)) ∧
    (a.deselections = none →
        (save_image_analysis img a none).deselections = img.deselections) ∧
    ((save_image_analysis img a none).mask_coverage_percent = none →
        img.mask_coverage_percent = none) ∧
    ((save_image_analysis img a none).usable_area = none →
        img.usable_area = none) := by
  rcases hsel : a.deselections with _ | items
  · rw [save_success_eq]
    simp only [hsel]
    refine ⟨⟨?_, ?_, ?_, ?_, ?_, ?_, ?_, ?_, ?_, ?_⟩, ?_, ?_, ?_⟩ <;>
      intro hcond <;>
      first
        | exact upd_eq_none hcond
        | simp_all [applyAnalysisFields, upd]
  · rw [save_success_eq]
    simp only [hsel]
    refine ⟨⟨?_, ?_, ?_, ?_, ?_, ?_, ?_, ?_, ?_, ?_⟩, ?_, ?_, ?_⟩ <;>
      intro hcond <;>
      first
        | exact upd_eq_none hcond
        | simp_all [applyAnalysisFields, upd]

theorem null_fields_preserved_witness :
    (save_image_analysis img0 upd0 none).mask_coverage_percent =
        img0.mask_coverage_percent ∧
      (save_image_analysis img0 upd0 none).real_width = img0.real_width :=
  ⟨(null_fields_preserved img0 upd0).1.1 (by rfl),
   (null_fields_preserved img0 upd0).1.2.2.2.2.2.2.2.1 (by rfl)⟩

end DrawSize
